import Mathlib

/-!
Shallow embedding of the TransactAI local-storage service
(`localStorageService`): a per-user, per-entity CRUD facade over the
browser key-value store.  The store is modelled as a function from key
strings to optional cells; a cell is either the JSON serialization of a
value, a raw (non-JSON) string as written by the PIN service, or a
malformed string on which JSON.parse throws.  The boolean `w` models
whether the code runs in a browser (window defined) and hence a
storage environment is available.
-/

namespace TransactAI

/-- The debit or credit tag of a transaction. -/
inductive TxType where
  | debit
  | credit
deriving Repr, DecidableEq

/-- interface Transaction -/
structure Transaction where
  id : String
  description : String
  amount : Int
  category : String
  date : String
  recipient : Option String
  type : Option TxType
deriving Repr, DecidableEq

/-- interface Category -/
structure Category where
  name : String
  createdAt : String
deriving Repr, DecidableEq

/-- interface UserProfile (phone is required; the rest optional) -/
structure UserProfile where
  phone : String
  name : Option String := none
  fullName : Option String := none
  gender : Option String := none
  email : Option String := none
  createdAt : Option String := none
  updatedAt : Option String := none
deriving Repr, DecidableEq

/-- interface DownloadRecord -/
structure DownloadRecord where
  id : String
  filename : String
  format : String
  fileSize : Int
  fileContent : String
  mimeType : String
  downloadDate : String
  transactionCount : Int
  period : Option String
deriving Repr, DecidableEq

/-- Parsed JSON payloads that the service ever stores.  JS is duck
typed: `JSON.parse` returns a dynamic value and the reading service
uses it as the type it expects.  Every well-formed payload written by
this service is one of these shapes. -/
inductive JVal where
  | txns (ts : List Transaction)
  | cats (cs : List Category)
  | profile (p : UserProfile)
  | session (phone : String) (timestamp : String)
  | downloads (ds : List DownloadRecord)
deriving Repr, DecidableEq

/-- A raw stored string: either well-formed JSON (identified with its
parse result), a plain string written without JSON.stringify (the PIN
and the onboarding flag; no reader ever JSON-parses those cells), or a
string JSON.parse rejects. -/
inductive Cell where
  | json (v : JVal)
  | plain (s : String)
  | bad
deriving Repr, DecidableEq

/-- The only runtime failure the layer can surface: a JSON.parse
SyntaxError. -/
inductive JsErr where
  | parse
deriving Repr, DecidableEq

/-- localStorage: keys to stored strings. -/
def Store : Type := String → Option Cell

/-- The store with no keys set. -/
def emptyStore : Store := fun _ => none

/-- localStorage.getItem -/
def getItem (st : Store) (k : String) : Option Cell := st k

/-- localStorage.setItem -/
def setItem (st : Store) (k : String) (v : Cell) : Store :=
  fun k2 => if k2 = k then some v else st k2

/-- localStorage.removeItem -/
def removeItem (st : Store) (k : String) : Store :=
  fun k2 => if k2 = k then none else st k2

/-- JSON.parse on a stored string.  Payloads written with
JSON.stringify parse back to themselves; `bad` throws.  A `plain` cell
is never parsed by any reader in the source (the PIN and onboarding
cells are only read back verbatim), so its branch is never reached
through the service API. -/
def jsonParse : Cell → Except JsErr JVal
  | .json v => .ok v
  | .plain _ => .error .parse
  | .bad => .error .parse

/-- Reading a dynamic parse result as `Transaction[]`.  Cells read
through `transactionService` are only ever written by it, so the
non-`txns` branches are unreachable through the service API. -/
def JVal.asTxns : JVal → List Transaction
  | .txns ts => ts
  | _ => []

/-- Reading a dynamic parse result as `Category[]`. -/
def JVal.asCats : JVal → List Category
  | .cats cs => cs
  | _ => []

/-- Reading a dynamic parse result as `DownloadRecord[]`. -/
def JVal.asDownloads : JVal → List DownloadRecord
  | .downloads ds => ds
  | _ => []

/-- Reading a dynamic parse result as a `UserProfile`. -/
def JVal.asProfile : JVal → Option UserProfile
  | .profile p => some p
  | _ => none

/-- `parsed.phone` on a dynamic parse result: a string when the parsed
object has a string `phone` property, otherwise undefined. -/
def JVal.phoneField : JVal → Option String
  | .session phone _ => some phone
  | _ => none

/-- The JS replace with a global regex that deletes every plus
character from the string. -/
def stripPlus (s : String) : String :=
  ⟨s.data.filter (fun c => c ≠ Char.ofNat 43)⟩

/-- `s.toLowerCase()`, modelled character by character (ASCII case
mapping; the repository only ever compares ASCII category names). -/
def strToLower (s : String) : String :=
  ⟨s.data.map Char.toLower⟩

/-- JS truthiness of an optional string parameter: absent and the
empty string are falsy. -/
def truthy : Option String → Bool
  | some s => s ≠ ""
  | none => false

namespace STORAGE_KEYS

def USER_PROFILE : String := "transactai_user_profile"
def TRANSACTIONS : String := "transactai_transactions"
def CATEGORIES : String := "transactai_categories"
def PIN : String := "transactai_pin"
def AUTH_SESSION : String := "transactai_auth_session"
def ONBOARDING_COMPLETE : String := "transactai_onboarding_complete"
def DOWNLOADS : String := "transactai_downloads"

end STORAGE_KEYS

/-- Helper to get user-specific storage key (`getUserKey`).  `w` is
whether a window object exists.  The try/catch wrapped around the
session read swallows a JSON.parse failure and falls through to the
bare base key. -/
def getUserKey (w : Bool) (st : Store) (baseKey : String)
    (userId : Option String) : String :=
  if truthy userId then baseKey ++ "_" ++ userId.getD ""
  else if w = false then baseKey
  else
    match getItem st STORAGE_KEYS.AUTH_SESSION with
    | none => baseKey
    | some cell =>
      match jsonParse cell with
      | .error _ => baseKey
      | .ok parsed =>
        let phone :=
          match parsed.phoneField.map stripPlus with
          | some p => if p = "" then "default" else p
          | none => "default"
        baseKey ++ "_" ++ phone

/-- Partial of Transaction: each property may be absent from the
patch object.  A present optional property carries the new optional
value. -/
structure TransactionPatch where
  id : Option String := none
  description : Option String := none
  amount : Option Int := none
  category : Option String := none
  date : Option String := none
  recipient : Option (Option String) := none
  type : Option (Option TxType) := none
deriving Repr, DecidableEq

/-- The JS object-spread merge of the patch over the transaction:
properties present in the
patch override, absent ones keep the original value. -/
def mergePatch (t : Transaction) (p : TransactionPatch) : Transaction :=
  { id := p.id.getD t.id
    description := p.description.getD t.description
    amount := p.amount.getD t.amount
    category := p.category.getD t.category
    date := p.date.getD t.date
    recipient := p.recipient.getD t.recipient
    type := p.type.getD t.type }

/-- `userService.saveProfile`.  `now` models
`new Date().toISOString()`.  The key argument is
the given userId if truthy, else the profile phone with plus
characters stripped. -/
def userService.saveProfile (w : Bool) (now : String) (profile : UserProfile)
    (userId : Option String) (st : Store) : Store :=
  if w = false then st else
  let data := { profile with updatedAt := some now }
  let key := getUserKey w st STORAGE_KEYS.USER_PROFILE
    (if truthy userId then userId else some (stripPlus profile.phone))
  setItem st key (.json (.profile data))

/-- `userService.getProfile` -/
def userService.getProfile (w : Bool) (userId : Option String)
    (st : Store) : Except JsErr (Option UserProfile) :=
  if w = false then .ok none else
  let key := getUserKey w st STORAGE_KEYS.USER_PROFILE userId
  match getItem st key with
  | none => .ok none
  | some cell => do
    let v ← jsonParse cell
    .ok v.asProfile

/-- `transactionService.getAll` -/
def transactionService.getAll (w : Bool) (userId : Option String)
    (st : Store) : Except JsErr (List Transaction) :=
  if w = false then .ok [] else
  let key := getUserKey w st STORAGE_KEYS.TRANSACTIONS userId
  match getItem st key with
  | none => .ok []
  | some cell => do
    let v ← jsonParse cell
    .ok v.asTxns

/-- `transactionService.save`: read the collection, push, write the
whole collection back. -/
def transactionService.save (w : Bool) (transaction : Transaction)
    (userId : Option String) (st : Store) : Except JsErr Store :=
  if w = false then .ok st else do
    let transactions ← transactionService.getAll w userId st
    let transactions := transactions ++ [transaction]
    let key := getUserKey w st STORAGE_KEYS.TRANSACTIONS userId
    .ok (setItem st key (.json (.txns transactions)))

/-- `transactionService.saveMany`: overwrite the whole collection. -/
def transactionService.saveMany (w : Bool) (transactions : List Transaction)
    (userId : Option String) (st : Store) : Store :=
  if w = false then st else
  let key := getUserKey w st STORAGE_KEYS.TRANSACTIONS userId
  setItem st key (.json (.txns transactions))

/-- `transactionService.update`: `findIndex` then in-place overwrite
with the spread merge; when the id is not found (`index === -1`)
nothing is written. -/
def transactionService.update (w : Bool) (id : String)
    (updates : TransactionPatch) (userId : Option String)
    (st : Store) : Except JsErr Store :=
  if w = false then .ok st else do
    let transactions ← transactionService.getAll w userId st
    let index := transactions.findIdx (fun t => t.id == id)
    match transactions[index]? with
    | none => .ok st
    | some t =>
      let transactions := transactions.set index (mergePatch t updates)
      let key := getUserKey w st STORAGE_KEYS.TRANSACTIONS userId
      .ok (setItem st key (.json (.txns transactions)))

/-- `transactionService.delete`: filter out the id and rewrite. -/
def transactionService.delete (w : Bool) (id : String)
    (userId : Option String) (st : Store) : Except JsErr Store :=
  if w = false then .ok st else do
    let transactions ← transactionService.getAll w userId st
    let filtered := transactions.filter (fun t => t.id != id)
    let key := getUserKey w st STORAGE_KEYS.TRANSACTIONS userId
    .ok (setItem st key (.json (.txns filtered)))

/-- `transactionService.getByCategory`: pure filter over getAll. -/
def transactionService.getByCategory (w : Bool) (category : String)
    (userId : Option String) (st : Store) : Except JsErr (List Transaction) := do
  let transactions ← transactionService.getAll w userId st
  .ok (transactions.filter (fun t => t.category == category))

/-- `categoryService.getAll` -/
def categoryService.getAll (w : Bool) (userId : Option String)
    (st : Store) : Except JsErr (List Category) :=
  if w = false then .ok [] else
  let key := getUserKey w st STORAGE_KEYS.CATEGORIES userId
  match getItem st key with
  | none => .ok []
  | some cell => do
    let v ← jsonParse cell
    .ok v.asCats

/-- `categoryService.add`: case-insensitive duplicate check before
push; when a duplicate exists nothing is written at all. -/
def categoryService.add (w : Bool) (now : String) (categoryName : String)
    (userId : Option String) (st : Store) : Except JsErr Store :=
  if w = false then .ok st else do
    let categories ← categoryService.getAll w userId st
    match categories.find? (fun c => strToLower c.name == strToLower categoryName) with
    | some _ => .ok st
    | none =>
      let categories := categories ++ [{ name := categoryName, createdAt := now }]
      let key := getUserKey w st STORAGE_KEYS.CATEGORIES userId
      .ok (setItem st key (.json (.cats categories)))

/-- `categoryService.remove`: case-sensitive filter (`!==`) and
rewrite. -/
def categoryService.remove (w : Bool) (categoryName : String)
    (userId : Option String) (st : Store) : Except JsErr Store :=
  if w = false then .ok st else do
    let categories ← categoryService.getAll w userId st
    let filtered := categories.filter (fun c => c.name != categoryName)
    let key := getUserKey w st STORAGE_KEYS.CATEGORIES userId
    .ok (setItem st key (.json (.cats filtered)))

/-- `categoryService.getNames` -/
def categoryService.getNames (w : Bool) (userId : Option String)
    (st : Store) : Except JsErr (List String) := do
  let categories ← categoryService.getAll w userId st
  .ok (categories.map (fun c => c.name))

/-- The key used by every pinService operation:
`userId ? PIN_userId : PIN` — a plain ternary on the parameter, with
no session fallback. -/
def pinKey (userId : Option String) : String :=
  if truthy userId then STORAGE_KEYS.PIN ++ "_" ++ userId.getD ""
  else STORAGE_KEYS.PIN

/-- `pinService.save`: the PIN string is stored raw, not
JSON-stringified. -/
def pinService.save (w : Bool) (pin : String) (userId : Option String)
    (st : Store) : Store :=
  if w = false then st else
  setItem st (pinKey userId) (.plain pin)

/-- `pinService.verify`: `savedPin === pin`.  The PIN cell is only
ever written by `pinService.save`, so a non-`plain` cell under this
key is unreachable through the API. -/
def pinService.verify (w : Bool) (pin : String) (userId : Option String)
    (st : Store) : Bool :=
  if w = false then false else
  match getItem st (pinKey userId) with
  | some (.plain savedPin) => savedPin == pin
  | _ => false

/-- `pinService.exists`: `!!getItem(key)` — note the empty string is
falsy in JS, so an empty stored PIN reads as absent. -/
def pinService.exists (w : Bool) (userId : Option String)
    (st : Store) : Bool :=
  if w = false then false else
  match getItem st (pinKey userId) with
  | some (.plain s) => s ≠ ""
  | some _ => true
  | none => false

/-- `pinService.remove` -/
def pinService.remove (w : Bool) (userId : Option String)
    (st : Store) : Store :=
  if w = false then st else
  removeItem st (pinKey userId)

/-- `pinService.get`: the raw stored string or null.  As in `verify`,
only `plain` cells are reachable under the PIN key. -/
def pinService.get (w : Bool) (userId : Option String)
    (st : Store) : Option String :=
  if w = false then none else
  match getItem st (pinKey userId) with
  | some (.plain s) => some s
  | _ => none

/-- `authService.saveSession`: a singular, process-wide record. -/
def authService.saveSession (w : Bool) (now : String) (phone : String)
    (st : Store) : Store :=
  if w = false then st else
  setItem st STORAGE_KEYS.AUTH_SESSION (.json (.session phone now))

/-- `authService.getSession`: parse is NOT wrapped in try/catch here,
unlike in `getUserKey`. -/
def authService.getSession (w : Bool) (st : Store) :
    Except JsErr (Option (String × String)) :=
  if w = false then .ok none else
  match getItem st STORAGE_KEYS.AUTH_SESSION with
  | none => .ok none
  | some cell => do
    let v ← jsonParse cell
    .ok (match v with
         | .session phone timestamp => some (phone, timestamp)
         | _ => none)

/-- `onboardingService.markComplete`: stores the raw string true. -/
def onboardingService.markComplete (w : Bool) (st : Store) : Store :=
  if w = false then st else
  setItem st STORAGE_KEYS.ONBOARDING_COMPLETE (.plain "true")

/-- `onboardingService.isComplete` -/
def onboardingService.isComplete (w : Bool) (st : Store) : Bool :=
  if w = false then false else
  getItem st STORAGE_KEYS.ONBOARDING_COMPLETE == some (.plain "true")

/-- `downloadService.getAll` -/
def downloadService.getAll (w : Bool) (userId : Option String)
    (st : Store) : Except JsErr (List DownloadRecord) :=
  if w = false then .ok [] else
  let key := getUserKey w st STORAGE_KEYS.DOWNLOADS userId
  match getItem st key with
  | none => .ok []
  | some cell => do
    let v ← jsonParse cell
    .ok v.asDownloads

/-- `downloadService.save`: `unshift` (add to the beginning), then
keep only the first 50, then rewrite. -/
def downloadService.save (w : Bool) (download : DownloadRecord)
    (userId : Option String) (st : Store) : Except JsErr Store :=
  if w = false then .ok st else do
    let downloads ← downloadService.getAll w userId st
    let downloads := download :: downloads
    let limited := downloads.take 50
    let key := getUserKey w st STORAGE_KEYS.DOWNLOADS userId
    .ok (setItem st key (.json (.downloads limited)))

/-- `downloadService.delete` -/
def downloadService.delete (w : Bool) (id : String)
    (userId : Option String) (st : Store) : Except JsErr Store :=
  if w = false then .ok st else do
    let downloads ← downloadService.getAll w userId st
    let filtered := downloads.filter (fun d => d.id != id)
    let key := getUserKey w st STORAGE_KEYS.DOWNLOADS userId
    .ok (setItem st key (.json (.downloads filtered)))

/-- `downloadService.clear` -/
def downloadService.clear (w : Bool) (userId : Option String)
    (st : Store) : Store :=
  if w = false then st else
  removeItem st (getUserKey w st STORAGE_KEYS.DOWNLOADS userId)

/-- Folding a sequence of `downloadService.save` calls, oldest first. -/
def saveAllDownloads (w : Bool) (ds : List DownloadRecord)
    (userId : Option String) (st : Store) : Except JsErr Store :=
  ds.foldlM (fun s d => downloadService.save w d userId s) st

/-! ### Store helper lemmas -/

theorem getItem_setItem_self (st : Store) (k : String) (v : Cell) :
    getItem (setItem st k v) k = some v := by
  simp [getItem, setItem]

theorem getItem_setItem_ne (st : Store) (k k2 : String) (v : Cell)
    (h : k2 ≠ k) : getItem (setItem st k v) k2 = getItem st k2 := by
  simp [getItem, setItem, h]

theorem setItem_eq_self (st : Store) (k : String) (v : Cell)
    (h : getItem st k = some v) : setItem st k v = st := by
  funext k2
  by_cases hk : k2 = k
  · subst hk
    simpa [setItem] using h.symm
  · simp [setItem, hk]

theorem list_set_get_self {α : Type} (l : List α) (i : Nat)
    (h : i < l.length) : l.set i (l.get ⟨i, h⟩) = l := by
  apply List.ext_getElem
  · simp
  · intro n h1 h2
    rcases eq_or_ne n i with rfl | hne
    · simp
    · rw [List.getElem_set_ne]
      omega

/-! ### Sample records and stores used by witnesses and
counterexamples -/

def txA : Transaction :=
  { id := "a", description := "coffee", amount := 120, category := "Food",
    date := "2026-01-01", recipient := none, type := some .debit }

def txB : Transaction :=
  { id := "b", description := "bus", amount := 30, category := "Transport",
    date := "2026-01-02", recipient := some "metro", type := some .debit }

def catFood : Category := { name := "Food", createdAt := "2026-01-01" }

def dlA : DownloadRecord :=
  { id := "d1", filename := "x.csv", format := "csv", fileSize := 10,
    fileContent := "a,b", mimeType := "text/csv",
    downloadDate := "2026-01-02", transactionCount := 2, period := none }

def profileA : UserProfile := { phone := "+911234567890" }

/-- A store holding only an auth session for phone +911234567890. -/
def sessionStore : Store :=
  setItem emptyStore STORAGE_KEYS.AUTH_SESSION
    (.json (.session "+911234567890" "2026-01-01"))

/-- A store whose auth-session cell holds malformed JSON. -/
def badSessionStore : Store :=
  setItem emptyStore STORAGE_KEYS.AUTH_SESSION .bad

/-- A store holding one category under the bare categories key. -/
def catStoreFood : Store :=
  setItem emptyStore STORAGE_KEYS.CATEGORIES (.json (.cats [catFood]))

/-- A store holding two transactions under the bare transactions
key. -/
def txStoreAB : Store :=
  setItem emptyStore STORAGE_KEYS.TRANSACTIONS (.json (.txns [txA, txB]))

/-! ### Claims -/

/-- Claim C10: category removal matches names case-sensitively, unlike
insertion: for every stored category list, `categoryService.remove n`
rewrites the list to exactly the categories whose stored name differs
from `n` character for character, and a category added as "Food" and
then removed as "food" remains stored. -/
theorem C10_remove_case_sensitive :
    (∀ (st : Store) (uid : Option String) (l : List Category) (n : String),
      getItem st (getUserKey true st STORAGE_KEYS.CATEGORIES uid) =
          some (.json (.cats l)) →
      categoryService.remove true n uid st =
        .ok (setItem st (getUserKey true st STORAGE_KEYS.CATEGORIES uid)
          (.json (.cats (l.filter (fun c => c.name != n)))))) ∧
    (∀ now : String,
      (do
        let st1 ← categoryService.add true now "Food" none emptyStore
        let st2 ← categoryService.remove true "food" none st1
        categoryService.getAll true none st2) =
      Except.ok [{ name := "Food", createdAt := now }]) := by
  constructor
  · intro st uid l n h
    simp only [categoryService.remove, categoryService.getAll, h, jsonParse,
      JVal.asCats, if_neg, Bool.true_eq_false, ite_false]
    rfl
  · intro now
    rfl

/-- Witness for C10 at a concrete store holding the category "Food":
removing "food" matches nothing. -/
theorem C10_witness :
    categoryService.remove true "food" none catStoreFood =
      .ok (setItem catStoreFood
        (getUserKey true catStoreFood STORAGE_KEYS.CATEGORIES none)
        (.json (.cats ([catFood].filter (fun c => c.name != "food"))))) :=
  C10_remove_case_sensitive.1 catStoreFood none [catFood] "food" (by decide)

/-! ### Evaluation helpers for reads over a well-formed cell -/

theorem exceptBind_ok {ε α β : Type} (a : α) (f : α → Except ε β) :
    (Except.ok a >>= f) = f a := rfl

theorem exceptBind_error {ε α β : Type} (e : ε) (f : α → Except ε β) :
    (Except.error e >>= f) = Except.error e := rfl

theorem getUserKey_of_no_session (st : Store) (base : String)
    (h : getItem st STORAGE_KEYS.AUTH_SESSION = none) :
    getUserKey true st base none = base := by
  simp [getUserKey, truthy, h]

theorem txGetAll_eq (st : Store) (uid : Option String)
    (l : List Transaction)
    (h : getItem st (getUserKey true st STORAGE_KEYS.TRANSACTIONS uid) =
      some (.json (.txns l))) :
    transactionService.getAll true uid st = .ok l := by
  simp [transactionService.getAll, h, jsonParse, JVal.asTxns, exceptBind_ok]

theorem catGetAll_eq (st : Store) (uid : Option String)
    (l : List Category)
    (h : getItem st (getUserKey true st STORAGE_KEYS.CATEGORIES uid) =
      some (.json (.cats l))) :
    categoryService.getAll true uid st = .ok l := by
  simp [categoryService.getAll, h, jsonParse, JVal.asCats, exceptBind_ok]

theorem dlGetAll_eq (st : Store) (uid : Option String)
    (l : List DownloadRecord)
    (h : getItem st (getUserKey true st STORAGE_KEYS.DOWNLOADS uid) =
      some (.json (.downloads l))) :
    downloadService.getAll true uid st = .ok l := by
  simp [downloadService.getAll, h, jsonParse, JVal.asDownloads, exceptBind_ok]

/-- Claim C5: category names are de-duplicated case-insensitively on
insert: `categoryService.add n` leaves the store unchanged when some
stored category name equals `n` up to case, and adding the same name
with different casing twice from an empty store yields exactly the one
category first added. -/
theorem C5_add_dedup_case_insensitive :
    (∀ (st : Store) (uid : Option String) (l : List Category)
        (n now : String),
      getItem st (getUserKey true st STORAGE_KEYS.CATEGORIES uid) =
          some (.json (.cats l)) →
      (∃ c ∈ l, strToLower c.name = strToLower n) →
      categoryService.add true now n uid st = .ok st) ∧
    (∀ (n1 n2 now1 now2 : String),
      strToLower n1 = strToLower n2 →
      (do
        let st1 ← categoryService.add true now1 n1 none emptyStore
        let st2 ← categoryService.add true now2 n2 none st1
        categoryService.getAll true none st2) =
      Except.ok [{ name := n1, createdAt := now1 }]) := by
  constructor
  · intro st uid l n now h hdup
    obtain ⟨c, hc, hceq⟩ := hdup
    have hfind : ∃ x, l.find? (fun c => strToLower c.name == strToLower n) =
        some x := by
      rw [← Option.isSome_iff_exists, List.find?_isSome]
      exact ⟨c, hc, by simp [hceq]⟩
    obtain ⟨x, hx⟩ := hfind
    simp [categoryService.add, catGetAll_eq st uid l h, hx,
      exceptBind_ok]
  · intro n1 n2 now1 now2 hlower
    have hbeq : (strToLower n1 == strToLower n2) = true := by
      simp [hlower]
    have hget1 : categoryService.getAll true none emptyStore = .ok [] := rfl
    have hk1 : getUserKey true emptyStore STORAGE_KEYS.CATEGORIES none =
        STORAGE_KEYS.CATEGORIES := getUserKey_of_no_session _ _ rfl
    have hadd1 : categoryService.add true now1 n1 none emptyStore =
        .ok (setItem emptyStore STORAGE_KEYS.CATEGORIES
          (.json (.cats [{ name := n1, createdAt := now1 }]))) := by
      simp [categoryService.add, hget1, hk1, exceptBind_ok, List.find?]
    set st1 := setItem emptyStore STORAGE_KEYS.CATEGORIES
      (.json (.cats [{ name := n1, createdAt := now1 }])) with hst1
    have hsess1 : getItem st1 STORAGE_KEYS.AUTH_SESSION = none := by
      rw [hst1, getItem_setItem_ne]
      · rfl
      · decide
    have hk2 : getUserKey true st1 STORAGE_KEYS.CATEGORIES none =
        STORAGE_KEYS.CATEGORIES := getUserKey_of_no_session _ _ hsess1
    have hcell1 : getItem st1 STORAGE_KEYS.CATEGORIES =
        some (.json (.cats [{ name := n1, createdAt := now1 }])) :=
      getItem_setItem_self ..
    have hget2 : categoryService.getAll true none st1 =
        .ok [{ name := n1, createdAt := now1 }] :=
      catGetAll_eq st1 none _ (by rw [hk2]; exact hcell1)
    have hfind : List.find? (fun (c : Category) => strToLower c.name == strToLower n2)
        [{ name := n1, createdAt := now1 }] =
        some ({ name := n1, createdAt := now1 } : Category) := by
      simp [List.find?, hbeq]
    have hadd2 : categoryService.add true now2 n2 none st1 = .ok st1 := by
      simp [categoryService.add, hget2, hfind, exceptBind_ok]
    simp [hadd1, hadd2, hget2, exceptBind_ok]

/-- Witness for C5: a store holding "Food" absorbs an add of "food",
and the two-add scenario from the empty store keeps one category. -/
theorem C5_witness :
    categoryService.add true "2026-01-02" "food" none catStoreFood =
        .ok catStoreFood ∧
    (do
      let st1 ← categoryService.add true "t1" "Food" none emptyStore
      let st2 ← categoryService.add true "t2" "food" none st1
      categoryService.getAll true none st2) =
      Except.ok [{ name := "Food", createdAt := "t1" }] :=
  ⟨C5_add_dedup_case_insensitive.1 catStoreFood none [catFood] "food"
      "2026-01-02" (by decide) ⟨catFood, by decide, by decide⟩,
   C5_add_dedup_case_insensitive.2 "Food" "food" "t1" "t2" (by decide)⟩

/-- Claim C7: not-found on update or delete is a silent no-op: when no
stored transaction has id `i`, both `transactionService.update` and
`transactionService.delete` succeed and leave the store exactly as it
was. -/
theorem C7_notfound_noop :
    ∀ (st : Store) (uid : Option String) (l : List Transaction)
      (i : String) (patch : TransactionPatch),
      getItem st (getUserKey true st STORAGE_KEYS.TRANSACTIONS uid) =
          some (.json (.txns l)) →
      (∀ t ∈ l, t.id ≠ i) →
      transactionService.update true i patch uid st = .ok st ∧
      transactionService.delete true i uid st = .ok st := by
  intro st uid l i patch h hne
  have hp : ∀ t ∈ l, (t.id == i) = false := by
    intro t ht
    simpa using hne t ht
  have hidx : l.findIdx (fun t => t.id == i) = l.length := by
    rw [List.findIdx_eq_length]
    intro t ht
    simp [hp t ht]
  have hfilter : l.filter (fun t => t.id != i) = l := by
    apply List.filter_eq_self.mpr
    intro t ht
    simpa using hne t ht
  have hoob : l[l.length]? = none := List.getElem?_eq_none (le_refl _)
  constructor
  · simp [transactionService.update, txGetAll_eq st uid l h,
      hidx, hoob, exceptBind_ok]
  · simp [transactionService.delete, txGetAll_eq st uid l h,
      hfilter, exceptBind_ok, setItem_eq_self st _ _ h]

/-- Witness for C7: updating and deleting the absent id "zzz" in a
store holding transactions "a" and "b" returns the store unchanged. -/
theorem C7_witness :
    transactionService.update true "zzz" {} none txStoreAB = .ok txStoreAB ∧
    transactionService.delete true "zzz" none txStoreAB = .ok txStoreAB :=
  C7_notfound_noop txStoreAB none [txA, txB] "zzz" {} (by decide) (by decide)

/-- Claim C8: reads never fail on missing data or missing storage: a
read against an absent resolved key yields the empty collection or
null, and outside a browser environment (`w = false`) every read
yields the same empty or null result; neither case is an error. -/
theorem C8_reads_never_fail :
    (∀ (st : Store) (uid : Option String),
      (getItem st (getUserKey true st STORAGE_KEYS.TRANSACTIONS uid) = none →
        transactionService.getAll true uid st = .ok []) ∧
      (getItem st (getUserKey true st STORAGE_KEYS.CATEGORIES uid) = none →
        categoryService.getAll true uid st = .ok []) ∧
      (getItem st (getUserKey true st STORAGE_KEYS.DOWNLOADS uid) = none →
        downloadService.getAll true uid st = .ok []) ∧
      (getItem st (getUserKey true st STORAGE_KEYS.USER_PROFILE uid) = none →
        userService.getProfile true uid st = .ok none) ∧
      (getItem st (pinKey uid) = none → pinService.get true uid st = none) ∧
      (getItem st STORAGE_KEYS.AUTH_SESSION = none →
        authService.getSession true st = .ok none)) ∧
    (∀ (st : Store) (uid : Option String) (pin : String),
      transactionService.getAll false uid st = .ok [] ∧
      categoryService.getAll false uid st = .ok [] ∧
      downloadService.getAll false uid st = .ok [] ∧
      userService.getProfile false uid st = .ok none ∧
      pinService.get false uid st = none ∧
      pinService.verify false pin uid st = false ∧
      authService.getSession false st = .ok none ∧
      onboardingService.isComplete false st = false) := by
  constructor
  · intro st uid
    refine ⟨?_, ?_, ?_, ?_, ?_, ?_⟩
    · intro h
      simp [transactionService.getAll, h]
    · intro h
      simp [categoryService.getAll, h]
    · intro h
      simp [downloadService.getAll, h]
    · intro h
      simp [userService.getProfile, h]
    · intro h
      simp [pinService.get, h]
    · intro h
      simp [authService.getSession, h]
  · intro st uid pin
    exact ⟨rfl, rfl, rfl, rfl, rfl, rfl, rfl, rfl⟩

/-- Witness for C8 at the empty store: every absent-key hypothesis
holds and every read returns its empty or null result. -/
theorem C8_witness :
    transactionService.getAll true none emptyStore = .ok [] ∧
    categoryService.getAll true none emptyStore = .ok [] ∧
    downloadService.getAll true none emptyStore = .ok [] ∧
    userService.getProfile true none emptyStore = .ok none ∧
    pinService.get true none emptyStore = none ∧
    authService.getSession true emptyStore = .ok none := by
  obtain ⟨h1, h2, h3, h4, h5, h6⟩ := C8_reads_never_fail.1 emptyStore none
  exact ⟨h1 rfl, h2 rfl, h3 rfl, h4 rfl, h5 rfl, h6 rfl⟩

/-- Counterexample to claim C1: with a current auth session for phone
"+911234567890" and no explicit user id, a PIN save targets the bare
key "transactai_pin" and leaves "transactai_pin_911234567890" absent,
contradicting the claimed uniformity over all six record kinds. -/
theorem C1_counterexample :
    getItem sessionStore STORAGE_KEYS.AUTH_SESSION =
      some (.json (.session "+911234567890" "2026-01-01")) ∧
    getItem (pinService.save true "1234" none sessionStore)
      "transactai_pin" = some (.plain "1234") ∧
    getItem (pinService.save true "1234" none sessionStore)
      "transactai_pin_911234567890" = none := by
  decide

/-- Claim C1 as amended: the resolution order (explicit non-empty id,
then session phone with plus characters stripped, then the bare base
key) governs
`getUserKey` and hence the profile, transaction, category and download
keys; PIN operations never consult the session — an explicit id gives
`transactai_pin_id`, otherwise the bare PIN key; and `saveProfile`
with no explicit id derives the id from the profile's own phone rather
than the session. -/
theorem C1_amended_key_derivation :
    (∀ (w : Bool) (st : Store) (base u : String), u ≠ "" →
      getUserKey w st base (some u) = base ++ "_" ++ u) ∧
    (∀ (st : Store) (base : String),
      getItem st STORAGE_KEYS.AUTH_SESSION = none →
      getUserKey true st base none = base) ∧
    (∀ (st : Store) (base p ts : String),
      getItem st STORAGE_KEYS.AUTH_SESSION =
        some (.json (.session p ts)) →
      stripPlus p ≠ "" →
      getUserKey true st base none = base ++ "_" ++ stripPlus p) ∧
    (∀ (st : Store) (uid : Option String) (l : List Transaction)
        (t : Transaction),
      getItem st (getUserKey true st STORAGE_KEYS.TRANSACTIONS uid) =
          some (.json (.txns l)) →
      transactionService.save true t uid st =
        .ok (setItem st (getUserKey true st STORAGE_KEYS.TRANSACTIONS uid)
          (.json (.txns (l ++ [t]))))) ∧
    (∀ (pin : String) (st : Store),
      getItem (pinService.save true pin none st) STORAGE_KEYS.PIN =
        some (.plain pin)) ∧
    (∀ (pin u : String) (st : Store), u ≠ "" →
      getItem (pinService.save true pin (some u) st)
        (STORAGE_KEYS.PIN ++ "_" ++ u) = some (.plain pin)) ∧
    (∀ (now : String) (p : UserProfile) (st : Store),
      userService.saveProfile true now p none st =
        setItem st
          (getUserKey true st STORAGE_KEYS.USER_PROFILE
            (some (stripPlus p.phone)))
          (.json (.profile { p with updatedAt := some now }))) := by
  refine ⟨?_, ?_, ?_, ?_, ?_, ?_, ?_⟩
  · intro w st base u hu
    simp [getUserKey, truthy, hu]
  · intro st base h
    exact getUserKey_of_no_session st base h
  · intro st base p ts h hp
    simp [getUserKey, truthy, h, jsonParse, JVal.phoneField, hp]
  · intro st uid l t h
    simp [transactionService.save, txGetAll_eq st uid l h,
      exceptBind_ok]
  · intro pin st
    simp [pinService.save, pinKey, truthy, getItem_setItem_self]
  · intro pin u st hu
    simp [pinService.save, pinKey, truthy, hu, getItem_setItem_self]
  · intro now p st
    simp [userService.saveProfile, truthy]

/-- Witness for the amended C1 theorem at concrete inputs: an explicit
id, the empty store, a concrete session, a concrete transaction store
and a PIN save with an explicit id. -/
theorem C1_witness :
    getUserKey true emptyStore "transactai_transactions" (some "u9") =
      "transactai_transactions" ++ "_" ++ "u9" ∧
    getUserKey true emptyStore "transactai_transactions" none =
      "transactai_transactions" ∧
    getUserKey true sessionStore "transactai_transactions" none =
      "transactai_transactions" ++ "_" ++ stripPlus "+911234567890" ∧
    transactionService.save true txA none txStoreAB =
      .ok (setItem txStoreAB
        (getUserKey true txStoreAB STORAGE_KEYS.TRANSACTIONS none)
        (.json (.txns ([txA, txB] ++ [txA])))) ∧
    getItem (pinService.save true "1234" (some "u9") emptyStore)
      (STORAGE_KEYS.PIN ++ "_" ++ "u9") = some (.plain "1234") :=
  ⟨C1_amended_key_derivation.1 true emptyStore "transactai_transactions" "u9"
      (by decide),
   C1_amended_key_derivation.2.1 emptyStore "transactai_transactions" rfl,
   C1_amended_key_derivation.2.2.1 sessionStore "transactai_transactions"
      "+911234567890" "2026-01-01" (by decide) (by decide),
   C1_amended_key_derivation.2.2.2.1 txStoreAB none [txA, txB] txA (by decide),
   C1_amended_key_derivation.2.2.2.2.2.1 "1234" "u9" emptyStore (by decide)⟩

/-- A store whose only cell is malformed JSON under key `k`. -/
def badStore (k : String) : Store := setItem emptyStore k .bad

/-- Counterexample to claim C2: with malformed JSON stored under the
auth-session key, `transactionService.getAll` does NOT surface a parse
failure — `getUserKey` swallows it (try/catch) and the read succeeds
with the empty collection. -/
theorem C2_counterexample :
    getItem badSessionStore STORAGE_KEYS.AUTH_SESSION = some .bad ∧
    transactionService.getAll true none badSessionStore = .ok [] :=
  ⟨rfl, rfl⟩

/-- Claim C2 as amended: malformed JSON under the resolved data key
propagates as a parse failure out of every read (and out of mutations,
which read first), and `authService.getSession` propagates it too; but
malformed session JSON read during key derivation is caught inside
`getUserKey`, which falls back to the bare base key. -/
theorem C2_amended_parse_propagation :
    (∀ (st : Store) (uid : Option String),
      getItem st (getUserKey true st STORAGE_KEYS.TRANSACTIONS uid) =
          some .bad →
      transactionService.getAll true uid st = .error .parse ∧
      transactionService.save true txA uid st = .error .parse) ∧
    (∀ (st : Store) (uid : Option String),
      getItem st (getUserKey true st STORAGE_KEYS.CATEGORIES uid) =
          some .bad →
      categoryService.getAll true uid st = .error .parse) ∧
    (∀ (st : Store) (uid : Option String),
      getItem st (getUserKey true st STORAGE_KEYS.DOWNLOADS uid) =
          some .bad →
      downloadService.getAll true uid st = .error .parse) ∧
    (∀ (st : Store) (uid : Option String),
      getItem st (getUserKey true st STORAGE_KEYS.USER_PROFILE uid) =
          some .bad →
      userService.getProfile true uid st = .error .parse) ∧
    (∀ st : Store,
      getItem st STORAGE_KEYS.AUTH_SESSION = some .bad →
      authService.getSession true st = .error .parse) ∧
    (∀ (st : Store) (base : String),
      getItem st STORAGE_KEYS.AUTH_SESSION = some .bad →
      getUserKey true st base none = base) := by
  refine ⟨?_, ?_, ?_, ?_, ?_, ?_⟩
  · intro st uid h
    have hget : transactionService.getAll true uid st = .error .parse := by
      simp [transactionService.getAll, h, jsonParse, exceptBind_error]
    refine ⟨hget, ?_⟩
    simp [transactionService.save, hget, exceptBind_error]
  · intro st uid h
    simp [categoryService.getAll, h, jsonParse, exceptBind_error]
  · intro st uid h
    simp [downloadService.getAll, h, jsonParse, exceptBind_error]
  · intro st uid h
    simp [userService.getProfile, h, jsonParse, exceptBind_error]
  · intro st h
    simp [authService.getSession, h, jsonParse, exceptBind_error]
  · intro st base h
    simp [getUserKey, truthy, h, jsonParse]

/-- Witness for the amended C2 theorem at concrete single-cell stores
holding malformed JSON under each data key. -/
theorem C2_witness :
    transactionService.getAll true none
        (badStore "transactai_transactions") = .error .parse ∧
    categoryService.getAll true none
        (badStore "transactai_categories") = .error .parse ∧
    downloadService.getAll true none
        (badStore "transactai_downloads") = .error .parse ∧
    userService.getProfile true none
        (badStore "transactai_user_profile") = .error .parse ∧
    authService.getSession true badSessionStore = .error .parse ∧
    getUserKey true badSessionStore "transactai_transactions" none =
      "transactai_transactions" :=
  ⟨(C2_amended_parse_propagation.1 (badStore "transactai_transactions") none
      (by decide)).1,
   C2_amended_parse_propagation.2.1 (badStore "transactai_categories") none
      (by decide),
   C2_amended_parse_propagation.2.2.1 (badStore "transactai_downloads") none
      (by decide),
   C2_amended_parse_propagation.2.2.2.1 (badStore "transactai_user_profile")
      none (by decide),
   C2_amended_parse_propagation.2.2.2.2.1 badSessionStore (by decide),
   C2_amended_parse_propagation.2.2.2.2.2 badSessionStore
     "transactai_transactions" (by decide)⟩

/-- Every transaction field not named in the patch keeps its previous
value after the spread merge. -/
def preservesUnpatched (t : Transaction) (p : TransactionPatch) : Prop :=
  (p.id = none → (mergePatch t p).id = t.id) ∧
  (p.description = none → (mergePatch t p).description = t.description) ∧
  (p.amount = none → (mergePatch t p).amount = t.amount) ∧
  (p.category = none → (mergePatch t p).category = t.category) ∧
  (p.date = none → (mergePatch t p).date = t.date) ∧
  (p.recipient = none → (mergePatch t p).recipient = t.recipient) ∧
  (p.type = none → (mergePatch t p).type = t.type)

/-- Claim C6: `transactionService.update` shallow-merges the patch
into the located transaction only: the collection is rewritten with
just that position replaced by the merge, every other position is
unchanged, and every field absent from the patch keeps its previous
value. -/
theorem C6_update_shallow_merge (st : Store) (uid : Option String)
    (l : List Transaction) (i : String) (patch : TransactionPatch)
    (t : Transaction)
    (hcell : getItem st (getUserKey true st STORAGE_KEYS.TRANSACTIONS uid) =
      some (.json (.txns l)))
    (ht : l[l.findIdx (fun t => t.id == i)]? = some t) :
    t.id = i ∧
    transactionService.update true i patch uid st =
      .ok (setItem st (getUserKey true st STORAGE_KEYS.TRANSACTIONS uid)
        (.json (.txns (l.set (l.findIdx (fun t => t.id == i))
          (mergePatch t patch))))) ∧
    (∀ j : Nat, j ≠ l.findIdx (fun t => t.id == i) →
      (l.set (l.findIdx (fun t => t.id == i)) (mergePatch t patch))[j]? =
        l[j]?) ∧
    preservesUnpatched t patch := by
  have hlt : l.findIdx (fun t => t.id == i) < l.length := by
    by_contra hge
    rw [List.getElem?_eq_none (Nat.le_of_not_lt hge)] at ht
    exact Option.noConfusion ht
  have hgot : l[l.findIdx (fun t => t.id == i)] = t := by
    have := List.getElem?_eq_getElem hlt
    rw [this] at ht
    exact Option.some.injEq .. ▸ ht
  refine ⟨?_, ?_, ?_, ?_⟩
  · have hp := List.findIdx_of_getElem?_eq_some ht
    simpa using hp
  · simp only [transactionService.update,
      txGetAll_eq st uid l hcell, exceptBind_ok, ht,
      Bool.true_eq_false, if_neg]
    rfl
  · intro j hj
    exact List.getElem?_set_ne (Ne.symm hj)
  · refine ⟨?_, ?_, ?_, ?_, ?_, ?_, ?_⟩ <;>
      (intro hp; simp [mergePatch, hp])

/-- Witness for C6: patching the description of stored transaction "b"
merges into the located entry only. -/
theorem C6_witness :
    txB.id = "b" ∧
    transactionService.update true "b" { description := some "train" } none
        txStoreAB =
      .ok (setItem txStoreAB
        (getUserKey true txStoreAB STORAGE_KEYS.TRANSACTIONS none)
        (.json (.txns ([txA, txB].set
          ([txA, txB].findIdx (fun t => t.id == "b"))
          (mergePatch txB { description := some "train" }))))) ∧
    (∀ j : Nat, j ≠ [txA, txB].findIdx (fun t => t.id == "b") →
      ([txA, txB].set ([txA, txB].findIdx (fun t => t.id == "b"))
        (mergePatch txB { description := some "train" }))[j]? =
        [txA, txB][j]?) ∧
    preservesUnpatched txB { description := some "train" } :=
  C6_update_shallow_merge txStoreAB none [txA, txB] "b"
    { description := some "train" } txB (by decide) (by decide)

/-- Counterexample to claim C3: the profile round-trip is not the
identity — `saveProfile` overwrites `updatedAt` with the save
timestamp, so the profile read back differs from the profile saved
(here: `updatedAt` none before, some timestamp after). -/
theorem C3_counterexample :
    userService.getProfile true (some "u9")
        (userService.saveProfile true "2026-02-02T00:00:00.000Z" profileA
          (some "u9") emptyStore) =
      .ok (some { profileA with updatedAt := some "2026-02-02T00:00:00.000Z" }) ∧
    profileA.updatedAt = none ∧
    some { profileA with updatedAt := some "2026-02-02T00:00:00.000Z" } ≠
      some profileA := by
  refine ⟨rfl, rfl, ?_⟩
  decide

/-- Claim C3 as amended: the save/read round-trip on an empty store is
the identity for transactions, download records and the PIN; for
profiles it is not: reading back with the same explicit user id yields
the saved profile with `updatedAt` replaced by the save timestamp (all
other fields unchanged), while with no explicit id and no session the
profile is stored under a key derived from its own phone but read from
the bare key, so the round-trip yields null (for any profile whose
stripped phone is non-empty). -/
theorem C3_amended_roundtrip :
    (∀ t : Transaction,
      (do
        let st1 ← transactionService.save true t none emptyStore
        transactionService.getAll true none st1) = Except.ok [t]) ∧
    (∀ d : DownloadRecord,
      (do
        let st1 ← downloadService.save true d none emptyStore
        downloadService.getAll true none st1) = Except.ok [d]) ∧
    (∀ pin : String,
      pinService.get true none (pinService.save true pin none emptyStore) =
        some pin) ∧
    (∀ (p : UserProfile) (now u : String), u ≠ "" →
      userService.getProfile true (some u)
          (userService.saveProfile true now p (some u) emptyStore) =
        .ok (some { p with updatedAt := some now })) ∧
    (∀ (p : UserProfile) (now : String), stripPlus p.phone ≠ "" →
      userService.getProfile true none
          (userService.saveProfile true now p none emptyStore) =
        .ok none) := by
  refine ⟨?_, ?_, ?_, ?_, ?_⟩
  · intro t
    rfl
  · intro d
    rfl
  · intro pin
    rfl
  · intro p now u hu
    have htr : truthy (some u) = true := by
      simp [truthy, hu]
    simp [userService.saveProfile, userService.getProfile, getUserKey, htr,
      getItem_setItem_self, jsonParse, JVal.asProfile, exceptBind_ok]
  · intro p now hp
    have htr : truthy (some (stripPlus p.phone)) = true := by
      simp [truthy, hp]
    have hlen : (STORAGE_KEYS.USER_PROFILE ++ "_" ++
        stripPlus p.phone).length = 24 + (stripPlus p.phone).length := by
      rw [String.length_append, String.length_append]
      have h1 : (STORAGE_KEYS.USER_PROFILE).length = 23 := rfl
      have h2 : ("_" : String).length = 1 := rfl
      omega
    have hne1 : STORAGE_KEYS.AUTH_SESSION ≠
        STORAGE_KEYS.USER_PROFILE ++ "_" ++ stripPlus p.phone := by
      intro heq
      have hl := congrArg String.length heq
      rw [hlen] at hl
      have h3 : (STORAGE_KEYS.AUTH_SESSION).length = 23 := rfl
      omega
    have hne2 : STORAGE_KEYS.USER_PROFILE ≠
        STORAGE_KEYS.USER_PROFILE ++ "_" ++ stripPlus p.phone := by
      intro heq
      have hl := congrArg String.length heq
      rw [hlen] at hl
      have h3 : (STORAGE_KEYS.USER_PROFILE).length = 23 := rfl
      omega
    have hsave : userService.saveProfile true now p none emptyStore =
        setItem emptyStore
          (STORAGE_KEYS.USER_PROFILE ++ "_" ++ stripPlus p.phone)
          (.json (.profile { p with updatedAt := some now })) := by
      simp [userService.saveProfile, truthy, getUserKey, htr, hp]
    rw [hsave]
    have hsess : getItem (setItem emptyStore
        (STORAGE_KEYS.USER_PROFILE ++ "_" ++ stripPlus p.phone)
        (.json (.profile { p with updatedAt := some now })))
        STORAGE_KEYS.AUTH_SESSION = none := by
      rw [getItem_setItem_ne]
      · rfl
      · exact hne1
    have hk := getUserKey_of_no_session _ STORAGE_KEYS.USER_PROFILE hsess
    have hcell : getItem (setItem emptyStore
        (STORAGE_KEYS.USER_PROFILE ++ "_" ++ stripPlus p.phone)
        (.json (.profile { p with updatedAt := some now })))
        STORAGE_KEYS.USER_PROFILE = none := by
      rw [getItem_setItem_ne]
      · rfl
      · exact hne2
    simp [userService.getProfile, hk, hcell]

/-- Witness for the amended C3 theorem: the profile clauses applied at
a concrete profile and timestamp, once with an explicit user id and
once with none. -/
theorem C3_witness :
    userService.getProfile true (some "u9")
        (userService.saveProfile true "t0" profileA (some "u9") emptyStore) =
      .ok (some { profileA with updatedAt := some "t0" }) ∧
    userService.getProfile true none
        (userService.saveProfile true "t0" profileA none emptyStore) =
      .ok none :=
  ⟨C3_amended_roundtrip.2.2.2.1 profileA "t0" "u9" (by decide),
   C3_amended_roundtrip.2.2.2.2 profileA "t0" (by decide)⟩

/-- Invariant carried through a sequence of download saves with no
explicit user id and no session: the downloads cell holds `cur` (or is
absent and `cur` is empty) and is within the 50-entry bound. -/
def DlInv (st : Store) (cur : List DownloadRecord) : Prop :=
  getItem st STORAGE_KEYS.AUTH_SESSION = none ∧
  (getItem st STORAGE_KEYS.DOWNLOADS = some (.json (.downloads cur)) ∨
    (getItem st STORAGE_KEYS.DOWNLOADS = none ∧ cur = [])) ∧
  cur.length ≤ 50

theorem DlInv.getAll {st : Store} {cur : List DownloadRecord}
    (h : DlInv st cur) : downloadService.getAll true none st = .ok cur := by
  obtain ⟨hsess, hcell | ⟨hcell, hnil⟩, -⟩ := h
  · exact dlGetAll_eq st none cur
      (by rw [getUserKey_of_no_session st _ hsess]; exact hcell)
  · subst hnil
    simp [downloadService.getAll, getUserKey_of_no_session st _ hsess, hcell]

theorem DlInv.save {st : Store} {cur : List DownloadRecord}
    (h : DlInv st cur) (d : DownloadRecord) :
    downloadService.save true d none st =
      .ok (setItem st STORAGE_KEYS.DOWNLOADS
        (.json (.downloads ((d :: cur).take 50)))) ∧
    DlInv (setItem st STORAGE_KEYS.DOWNLOADS
      (.json (.downloads ((d :: cur).take 50)))) ((d :: cur).take 50) := by
  have hsess := h.1
  constructor
  · simp [downloadService.save, h.getAll, exceptBind_ok,
      getUserKey_of_no_session st _ hsess]
  · refine ⟨?_, Or.inl (getItem_setItem_self ..), List.length_take_le ..⟩
    rw [getItem_setItem_ne]
    · exact hsess
    · decide

theorem take_append_take {α : Type} (a b : List α) (n : Nat) :
    (a ++ b.take n).take n = (a ++ b).take n := by
  rw [List.take_append_eq_append_take, List.take_append_eq_append_take,
    List.take_take, Nat.min_eq_left (Nat.sub_le n a.length)]

theorem saveAllDownloads_inv :
    ∀ (ds : List DownloadRecord) (st : Store) (cur : List DownloadRecord),
      DlInv st cur →
      ∃ st2, saveAllDownloads true ds none st = .ok st2 ∧
        DlInv st2 ((ds.reverse ++ cur).take 50) := by
  intro ds
  induction ds with
  | nil =>
    intro st cur h
    refine ⟨st, rfl, ?_⟩
    simpa [List.take_of_length_le h.2.2] using h
  | cons d rest ih =>
    intro st cur h
    obtain ⟨hsave, hinv⟩ := h.save d
    obtain ⟨st2, hrun, hinv2⟩ := ih _ _ hinv
    refine ⟨st2, ?_, ?_⟩
    · have hstep : saveAllDownloads true (d :: rest) none st =
          saveAllDownloads true rest none
            (setItem st STORAGE_KEYS.DOWNLOADS
              (.json (.downloads ((d :: cur).take 50)))) := by
        simp [saveAllDownloads, List.foldlM, hsave, exceptBind_ok]
      rw [hstep, hrun]
    · have heq : ((d :: rest).reverse ++ cur).take 50 =
          (rest.reverse ++ (d :: cur).take 50).take 50 := by
        rw [take_append_take]
        simp
      rw [heq]
      exact hinv2

/-- Claim C4: the per-user download history never exceeds 50 entries
and is kept newest first: any sequence of `downloadService.save` calls
from the empty store leaves exactly the most recently saved records,
newest first, truncated to 50 — in particular 51 saves retain the 50
most recent and evict the oldest. -/
theorem C4_download_history_bounded :
    ∀ ds : List DownloadRecord,
      (do
        let st ← saveAllDownloads true ds none emptyStore
        downloadService.getAll true none st) =
        Except.ok (ds.reverse.take 50) ∧
      (ds.reverse.take 50).length ≤ 50 := by
  intro ds
  have hinv0 : DlInv emptyStore [] := ⟨rfl, Or.inr ⟨rfl, rfl⟩, by simp⟩
  obtain ⟨st2, hrun, hinv⟩ := saveAllDownloads_inv ds emptyStore [] hinv0
  constructor
  · show (saveAllDownloads true ds none emptyStore >>=
      fun st => downloadService.getAll true none st) = _
    rw [hrun, exceptBind_ok]
    have hget := DlInv.getAll hinv
    simpa using hget
  · exact List.length_take_le ..

def txC : Transaction :=
  { id := "c", description := "book", amount := 250, category := "Education",
    date := "2026-01-03", recipient := none, type := none }

/-- Counterexample to claim C9: `transactionService.save` appends
unconditionally, so saving the same transaction twice from the empty
store yields a reachable collection with two entries sharing one
id. -/
theorem C9_counterexample :
    (do
      let st1 ← transactionService.save true txA none emptyStore
      let st2 ← transactionService.save true txA none st1
      transactionService.getAll true none st2) = Except.ok [txA, txA] ∧
    ¬ ([txA, txA].map Transaction.id).Nodup :=
  ⟨rfl, by decide⟩

/-- Claim C9 as amended: id uniqueness is preserved by the operations
but not enforced on insert — `save` keeps ids unique exactly when the
saved id is not already stored, `update` with a patch that does not
rename the id leaves the multiset of ids unchanged, and `delete`
preserves uniqueness unconditionally. -/
theorem C9_amended_id_uniqueness :
    (∀ (st : Store) (uid : Option String) (l : List Transaction)
        (t : Transaction),
      getItem st (getUserKey true st STORAGE_KEYS.TRANSACTIONS uid) =
          some (.json (.txns l)) →
      (l.map Transaction.id).Nodup →
      t.id ∉ l.map Transaction.id →
      transactionService.save true t uid st =
        .ok (setItem st (getUserKey true st STORAGE_KEYS.TRANSACTIONS uid)
          (.json (.txns (l ++ [t])))) ∧
      ((l ++ [t]).map Transaction.id).Nodup) ∧
    (∀ (st : Store) (uid : Option String) (l : List Transaction)
        (i : String) (patch : TransactionPatch),
      getItem st (getUserKey true st STORAGE_KEYS.TRANSACTIONS uid) =
          some (.json (.txns l)) →
      patch.id = none →
      ∃ (st2 : Store) (l2 : List Transaction),
        transactionService.update true i patch uid st = .ok st2 ∧
        getItem st2 (getUserKey true st STORAGE_KEYS.TRANSACTIONS uid) =
          some (.json (.txns l2)) ∧
        l2.map Transaction.id = l.map Transaction.id) ∧
    (∀ (st : Store) (uid : Option String) (l : List Transaction)
        (i : String),
      getItem st (getUserKey true st STORAGE_KEYS.TRANSACTIONS uid) =
          some (.json (.txns l)) →
      (l.map Transaction.id).Nodup →
      transactionService.delete true i uid st =
        .ok (setItem st (getUserKey true st STORAGE_KEYS.TRANSACTIONS uid)
          (.json (.txns (l.filter (fun t => t.id != i))))) ∧
      ((l.filter (fun t => t.id != i)).map Transaction.id).Nodup) := by
  refine ⟨?_, ?_, ?_⟩
  · intro st uid l t h hnd hfresh
    constructor
    · simp [transactionService.save, txGetAll_eq st uid l h,
        exceptBind_ok]
    · rw [List.map_append, List.nodup_append]
      refine ⟨hnd, List.nodup_singleton _, ?_⟩
      intro a ha hmem
      simp only [List.map_cons, List.map_nil, List.mem_singleton] at hmem
      exact hfresh (hmem ▸ ha)
  · intro st uid l i patch h hpid
    cases hcase : l[l.findIdx (fun t => t.id == i)]? with
    | none =>
      refine ⟨st, l, ?_, h, rfl⟩
      simp [transactionService.update,
        txGetAll_eq st uid l h, exceptBind_ok, hcase]
    | some t0 =>
      refine ⟨setItem st (getUserKey true st STORAGE_KEYS.TRANSACTIONS uid)
          (.json (.txns (l.set (l.findIdx (fun t => t.id == i))
            (mergePatch t0 patch)))),
        l.set (l.findIdx (fun t => t.id == i)) (mergePatch t0 patch),
        ?_, getItem_setItem_self .., ?_⟩
      · simp [transactionService.update,
          txGetAll_eq st uid l h, exceptBind_ok, hcase]
      · have hlt : l.findIdx (fun t => t.id == i) < l.length := by
          by_contra hge
          rw [List.getElem?_eq_none (Nat.le_of_not_lt hge)] at hcase
          exact Option.noConfusion hcase
        have hgot : l[l.findIdx (fun t => t.id == i)] = t0 := by
          rw [List.getElem?_eq_getElem hlt] at hcase
          exact Option.some_inj.mp hcase
        have hmid : (mergePatch t0 patch).id = t0.id := by
          simp [mergePatch, hpid]
        rw [List.map_set, hmid]
        have hlen2 : l.findIdx (fun t => t.id == i) <
            (l.map Transaction.id).length := by
          simpa using hlt
        have hself := list_set_get_self (l.map Transaction.id) _ hlen2
        have hcomp : (l.map Transaction.id).get
            ⟨l.findIdx (fun t => t.id == i), hlen2⟩ = t0.id := by
          rw [← hgot]
          simp [List.getElem_map]
        rw [← hcomp]
        exact hself
  · intro st uid l i h hnd
    constructor
    · simp [transactionService.delete,
        txGetAll_eq st uid l h, exceptBind_ok]
    · exact hnd.sublist ((List.filter_sublist l).map Transaction.id)

/-- Witness for the amended C9 theorem: saving the fresh id "c" into a
store holding ids "a" and "b", a non-renaming update of "b", and a
delete of "a". -/
theorem C9_witness :
    (transactionService.save true txC none txStoreAB =
      .ok (setItem txStoreAB
        (getUserKey true txStoreAB STORAGE_KEYS.TRANSACTIONS none)
        (.json (.txns ([txA, txB] ++ [txC])))) ∧
      (([txA, txB] ++ [txC]).map Transaction.id).Nodup) ∧
    (∃ (st2 : Store) (l2 : List Transaction),
      transactionService.update true "b" { description := some "x" } none
        txStoreAB = .ok st2 ∧
      getItem st2 (getUserKey true txStoreAB STORAGE_KEYS.TRANSACTIONS none) =
        some (.json (.txns l2)) ∧
      l2.map Transaction.id = [txA, txB].map Transaction.id) ∧
    (transactionService.delete true "a" none txStoreAB =
      .ok (setItem txStoreAB
        (getUserKey true txStoreAB STORAGE_KEYS.TRANSACTIONS none)
        (.json (.txns ([txA, txB].filter (fun t => t.id != "a"))))) ∧
      (([txA, txB].filter (fun t => t.id != "a")).map Transaction.id).Nodup) :=
  ⟨C9_amended_id_uniqueness.1 txStoreAB none [txA, txB] txC (by decide)
      (by decide) (by decide),
   C9_amended_id_uniqueness.2.1 txStoreAB none [txA, txB] "b"
      { description := some "x" } (by decide) rfl,
   C9_amended_id_uniqueness.2.2 txStoreAB none [txA, txB] "a" (by decide)
      (by decide)⟩

end TransactAI
